import Mathlib

/-!
Verification of the ESP32-SMS-Sender cellular registration and SMS core.

The development shallowly embeds the C++ sources:
  * `src/lib/Modem/Modem.cpp` / `Modem.hpp` (registration engine, carrier
    profiles, SMS sending),
  * `src/lib/ProbeRegistry/ProbeRegistry.cpp` (bounded probe registry),
  * `src/lib/GSettings/GSettings.cpp` (settings JSON snapshot),
  * `src/lib/HTTPServer/HTTPServer.cpp` and `src/src/main.cpp` (the /send
    endpoint and its wiring).

Arduino `String` values are modelled as `List Char` where index arithmetic
matters (AT response parsing, password masking) and as Lean `String`
elsewhere.  The AT transport is an oracle (`Env`) giving the response to the
k-th +CREG? query, its duration, and the result of the k-th transport-level
SMS submission.  Time (`millis`) is a natural-number clock advanced by the
modelled delays; the command log of a run is an explicit event trace.
-/

/-! ## Arduino String primitives -/

/-- C `isspace` on the characters Arduino `String::trim` / `atol` treat as
whitespace. -/
def isSpaceC (c : Char) : Bool :=
  c = ' ' || c = '\t' || c = '\n' || c = '\x0b' || c = '\x0c' || c = '\r'

/-- Arduino `String::trim`: strip leading and trailing whitespace. -/
def trimA (l : List Char) : List Char :=
  ((l.dropWhile isSpaceC).reverse.dropWhile isSpaceC).reverse

/-- Leading-digit accumulator of C `atol`: consume decimal digits, stop at the
first non-digit. -/
def digitsAcc : List Char → Nat → Nat
  | [], acc => acc
  | c :: rest, acc =>
    if '0' ≤ c ∧ c ≤ '9' then digitsAcc rest (acc * 10 + (c.toNat - '0'.toNat))
    else acc

/-- C `atol`, the backend of Arduino `String::toInt`: skip whitespace, read an
optional sign and the leading run of digits; a string with no digits parses
to 0. -/
def atol (l : List Char) : Int :=
  match l.dropWhile isSpaceC with
  | '-' :: rest => -(digitsAcc rest 0 : Int)
  | '+' :: rest => (digitsAcc rest 0 : Int)
  | t => (digitsAcc t 0 : Int)

/-- Arduino `String::indexOf(ch, fromIndex)`: the index of the first
occurrence of `c` at or after `start`, or -1. -/
def indexOfFrom (l : List Char) (c : Char) (start : Nat) : Int :=
  match (l.drop start).findIdx? (· = c) with
  | some k => ((start + k : Nat) : Int)
  | none => -1

/-- Arduino `String::substring(left, right)`: swaps the bounds if needed,
clamps them to the length, and returns the characters in `[left, right)`. -/
def substringA (l : List Char) (left right : Nat) : List Char :=
  (l.take (max left right)).drop (min left right)

/-- Arduino `String::startsWith(prefix)`: the first characters equal the
given prefix. -/
def startsWithA (l pre : List Char) : Bool :=
  l.take pre.length == pre

/-! ## AT transport oracle, event trace and modem state -/

/-- One observable action of the modelled modem core.  The `Nat` argument of
`setMode`, `cmnbSet` and `pollDone` is the mode-sequence entry index the
engine is working on (ghost data recording the loop position). -/
inductive Event where
  | cregQuery : Event
  | cmd : String → Event
  | copsLock : String → Int → Event
  | copsAuto : Event
  | setMode : Nat → Nat → Event
  | cmnbSet : Nat → Int → Event
  | pollDone : Nat → Bool → Event
  | cnmpAuto : Event
  | smsSend : String → String → Event
  deriving DecidableEq

/-- The external world: the response line delivered for the k-th +CREG? query
(`none` models `waitResponse` failing), the wall-clock duration of that round
trip, and the result of the k-th transport-level SMS submission. -/
structure Env where
  resp : Nat → Option (List Char)
  dur : Nat → Nat
  smsRes : Nat → Bool

/-- Modem-side state threaded through the embedding: the `millis()` clock,
the +CREG? query counter, the SMS submission counter, the `modemBusy` flag of
`Modem.hpp`, and the event trace of the run. -/
structure MState where
  now : Nat
  q : Nat
  sc : Nat
  busy : Bool
  events : List Event
  deriving DecidableEq

/-- Append one event to the trace. -/
def logEv (e : Event) (s : MState) : MState :=
  { s with events := s.events ++ [e] }

/-- Arduino `delay(d)`: advance the clock. -/
def delayM (d : Nat) (s : MState) : MState :=
  { s with now := s.now + d }

/-! ## Modem.cpp: registration check -/

/-- `Modem::isCsRegistered` (Modem.cpp:355-368) applied to the outcome of its
single +CREG? round trip: `none` is a failed `waitResponse`; otherwise the
line read after the `+CREG:` prefix is parsed — the field after the first
comma (up to the second comma if present) is trimmed and converted with
`toInt`, and the check succeeds only for status 1 (home) or 5 (roaming). -/
def isCsRegistered (resp : Option (List Char)) : Bool :=
  match resp with
  | none => false
  | some line =>
    let c1 := indexOfFrom line ',' 0
    let c2 := indexOfFrom line ',' (c1 + 1).toNat
    if c1 < 0 then false
    else
      let statStr :=
        if 0 < c2 then substringA line (c1 + 1).toNat c2.toNat
        else substringA line (c1 + 1).toNat line.length
      let stat := atol (trimA statStr)
      stat == 1 || stat == 5

/-- The status code `isCsRegistered` extracts from a response line: the
comma-delimited status field, trimmed and read by `toInt`. -/
def cregStatOf (line : List Char) : Int :=
  let c1 := indexOfFrom line ',' 0
  let c2 := indexOfFrom line ',' (c1 + 1).toNat
  let statStr :=
    if 0 < c2 then substringA line (c1 + 1).toNat c2.toNat
    else substringA line (c1 + 1).toNat line.length
  atol (trimA statStr)

/-- `Modem::isCsRegistered` as a state transformer: issues exactly one +CREG?
query (consuming the next oracle response), advances the clock by the round
trip's duration, and returns the parsed registration status. -/
def isCsRegisteredM (env : Env) (s : MState) : Bool × MState :=
  (isCsRegistered (env.resp s.q),
   { s with
      q := s.q + 1
      now := s.now + env.dur s.q
      events := s.events ++ [Event.cregQuery] })

/-! ## Modem.hpp: carrier profiles -/

/-- `CarrierProfile` (Modem.hpp:62-120): operator-specific radio strategy.
`modes` is the ordered 4-slot radio-mode sequence (0 = skip), `cmnb` the LTE
technology preference (-1 = leave unchanged), `plmn`/`act` the optional
operator lock (`plmn = none` models the null pointer). -/
structure CarrierProfile where
  name : String
  mccmnc : String
  modes : List Nat
  cmnb : Int
  plmn : Option String
  act : Int
  apn : String
  user : String
  pass : String
  deriving DecidableEq

/-- The Vodafone RO entry of `PROFILES` (Modem.hpp:137-143). -/
def vodafoneRO : CarrierProfile :=
  ⟨"Vodafone RO", "22601", [38, 51, 13, 2], 0, some "22601", 8, "", "", ""⟩

/-- The Digi RO entry of `PROFILES` (Modem.hpp:146-152). -/
def digiRO : CarrierProfile :=
  ⟨"Digi RO", "22605", [13, 2, 38, 51], -1, some "22605", 0, "internet", "", ""⟩

/-- The Orange RO entry of `PROFILES` (Modem.hpp:155-159). -/
def orangeRO : CarrierProfile :=
  ⟨"Orange RO", "22610", [38, 51, 13, 2], 0, some "22610", 8, "", "", ""⟩

/-- The static carrier table `PROFILES` (Modem.hpp:135-160). -/
def PROFILES : List CarrierProfile := [vodafoneRO, digiRO, orangeRO]

/-- `DEFAULT_PROFILE` (Modem.cpp:10): the null profile for unknown
operators. -/
def DEFAULT_PROFILE : Option CarrierProfile := none

/-- `Modem::mccmncFromIMSI` (Modem.cpp:262-267): the first five characters of
the IMSI, or the empty identifier when the IMSI is shorter. -/
def mccmncFromIMSI (imsi : String) : String :=
  if imsi.length < 5 then "" else imsi.take 5

/-- `Modem::selectProfile` (Modem.cpp:275-283): scan `PROFILES` for an exact
`mccmnc` match, falling back to `DEFAULT_PROFILE`. -/
def selectProfile (mccmnc : String) : Option CarrierProfile :=
  match PROFILES.find? (fun p => mccmnc == p.mccmnc) with
  | some p => some p
  | none => DEFAULT_PROFILE

/-! ## Modem.cpp: registration polling and the mode loop -/

/-- The body of `Modem::waitCsRegistered` (Modem.cpp:376-386): poll
`isCsRegistered` until success or until `millis()` reaches the deadline,
sleeping 500 ms between polls.  The fuel argument only bounds the recursion:
each iteration advances the clock by at least 500 ms, so with fuel
`ms / 500 + 1` the loop always exits through the deadline check first. -/
def waitLoop (env : Env) (deadline : Nat) : Nat → MState → Bool × MState
  | 0, s => (false, s)
  | fuel + 1, s =>
    if s.now < deadline then
      let pr := isCsRegisteredM env s
      if pr.1 then (true, pr.2)
      else waitLoop env deadline fuel (delayM 500 pr.2)
    else (false, s)

/-- `Modem::waitCsRegistered(ms)` (Modem.cpp:376-386). -/
def waitCsRegistered (env : Env) (ms : Nat) (s : MState) : Bool × MState :=
  waitLoop env (s.now + ms) (ms / 500 + 1) s

/-- The mode the loop of `Modem::setupRadioWithProfile` uses for entry `i`:
`prof ? prof->modes[i] : 2` (Modem.cpp:315). -/
def modeOf (prof : Option CarrierProfile) (i : Nat) : Nat :=
  match prof with
  | some p => p.modes.getD i 0
  | none => 2

/-- The conditional +CMNB= write of the loop body (Modem.cpp:330-334): the
LTE technology preference is sent only when the profile specifies one
(`cmnb >= 0`) and the chosen mode is in the LTE family (38 or 51). -/
def cmnbStep (prof : Option CarrierProfile) (i : Nat) (s : MState) : MState :=
  match prof with
  | some p =>
    if 0 ≤ p.cmnb ∧ (modeOf prof i = 38 ∨ modeOf prof i = 51) then
      logEv (Event.cmnbSet i p.cmnb) s
    else s
  | none => s

/-- One non-skip iteration of the loop of `Modem::setupRadioWithProfile`
(Modem.cpp:319-344): set the radio mode, query +CMNB?, conditionally apply
+CMNB=, settle 1.5 s, run the 30 s bounded registration poll and record its
outcome. -/
def tryEntryStep (env : Env) (prof : Option CarrierProfile) (i : Nat)
    (s : MState) : Bool × MState :=
  let s4 := delayM 1500 (cmnbStep prof i
    (logEv (Event.cmd ("+CMNB?"))
      (logEv (Event.setMode i (modeOf prof i)) s)))
  let pr := waitCsRegistered env 30000 s4
  (pr.1, logEv (Event.pollDone i pr.1) pr.2)

/-- The for-loop of `Modem::setupRadioWithProfile` (Modem.cpp:313-345) over
the remaining entry indices: an entry whose mode is zero is skipped;
otherwise the entry is tried and the loop returns true immediately on a
successful poll, else advances to the next entry. -/
def tryModesFrom (env : Env) (prof : Option CarrierProfile) :
    List Nat → MState → Bool × MState
  | [], s => (false, s)
  | i :: rest, s =>
    if modeOf prof i = 0 then tryModesFrom env prof rest s
    else
      let pr := tryEntryStep env prof i s
      if pr.1 then (true, pr.2) else tryModesFrom env prof rest pr.2

/-- `Modem::setupRadioWithProfile` (Modem.cpp:291-347): enable verbose URCs,
lock the operator when the profile has both a PLMN and a non-negative access
technology (otherwise request automatic selection), then try the four
mode-sequence entries in order. -/
def setupRadioWithProfile (env : Env) (prof : Option CarrierProfile)
    (s : MState) : Bool × MState :=
  let sa := logEv (Event.cmd ("+CREG=2")) s
  let sb := logEv (Event.cmd ("+CGREG=2")) sa
  let sc :=
    match prof with
    | some p =>
      match p.plmn with
      | some pl => if 0 ≤ p.act then logEv (Event.copsLock pl p.act) sb
                   else logEv Event.copsAuto sb
      | none => logEv Event.copsAuto sb
    | none => logEv Event.copsAuto sb
  tryModesFrom env prof [0, 1, 2, 3] sc

/-- `Modem::initModemClean` (Modem.cpp:173-235) from the point where the SIM
identity is known (the preceding power/UART/PIN bring-up touches hardware
only): derive the MCC+MNC, select the carrier profile, query +CNMP?, run
`setupRadioWithProfile`, and on failure fall back to fully automatic mode
(+CNMP=2) with one more 30 s registration wait.  The returned Bool is the
final `isCsRegistered()` check deciding between the "CS registered — SMS
ready" and "Still not CS registered" reports. -/
def initModemClean (env : Env) (imsi : String) (s : MState) : Bool × MState :=
  let mccmnc := mccmncFromIMSI imsi
  let prof := selectProfile mccmnc
  let s0 := logEv (Event.cmd ("+CNMP?")) s
  let pr := setupRadioWithProfile env prof s0
  let s1 :=
    if pr.1 then pr.2
    else (waitCsRegistered env 30000 (logEv Event.cnmpAuto pr.2)).2
  isCsRegisteredM env s1

/-! ## Modem.cpp: SMS sending -/

/-- `Modem::sendSMS` (Modem.cpp:424-428): unconditional pass-through to the
TinyGSM transport — no validation, no length cap; the oracle supplies the
transport's verdict. -/
def sendSMSM (env : Env) (dst text : String) (s : MState) : Bool × MState :=
  (env.smsRes s.sc,
   { s with sc := s.sc + 1, events := s.events ++ [Event.smsSend dst text] })

/-- `Modem::sendSmsSafe` (Modem.cpp:436-459): reject texts outside 1..160
characters and destinations that are not '+' followed by at least 7
characters; set `modemBusy`, re-confirm registration for up to 15 s (abort on
failure), switch to text mode (+CMGF=1), submit through the transport and
clear `modemBusy`. -/
def sendSmsSafe (env : Env) (dst text : String) (s : MState) : Bool × MState :=
  if text.length < 1 ∨ 160 < text.length then (false, s)
  else if ¬(startsWithA dst.toList ['+'] = true ∧ 7 ≤ (dst.toList.drop 1).length)
  then (false, s)
  else
    let sB := { s with busy := true }
    let pr := waitCsRegistered env 15000 sB
    if pr.1 = false then (false, { pr.2 with busy := false })
    else
      let sC := logEv (Event.cmd ("+CMGF=1")) pr.2
      let pr2 := sendSMSM env dst text sC
      (pr2.1, { pr2.2 with busy := false })

/-! ## ProbeRegistry -/

/-- `PROBE_MAX` (ProbeRegistry.hpp:16). -/
def PROBE_MAX : Nat := 16

/-- `ProbeRegistry` (ProbeRegistry.hpp:35-164): the bounded array
`entries_[PROBE_MAX]` together with `count_`, modelled as the list of live
`(name, probe)` entries; the probe callback type is abstract. -/
structure ProbeRegistry (α : Type) where
  entries : List (String × α)

/-- `ProbeRegistry::registerProbe` (ProbeRegistry.cpp:9-20): append the entry
and report true when below capacity, otherwise report false and leave the
registry untouched. -/
def ProbeRegistry.registerProbe (r : ProbeRegistry α) (name : String)
    (fn : α) : Bool × ProbeRegistry α :=
  if r.entries.length < PROBE_MAX then (true, ⟨r.entries ++ [(name, fn)]⟩)
  else (false, r)

/-- `ProbeRegistry::collectAll` (ProbeRegistry.cpp:51-68): snapshot the live
entries under the lock and emit one output item per entry. -/
def ProbeRegistry.collectAll (r : ProbeRegistry α) : List (String × α) :=
  r.entries

/-- Register a batch of probes in order, collecting each call's result
(models a registration sequence such as the one in `setup()`). -/
def registerMany : List (String × α) → ProbeRegistry α →
    List Bool × ProbeRegistry α
  | [], r => ([], r)
  | (n, f) :: rest, r =>
    let pr := r.registerProbe n f
    let prs := registerMany rest pr.2
    (pr.1 :: prs.1, prs.2)

/-! ## GSettings -/

/-- The fixed mask suffix of `GSettings::toJson` (GSettings.cpp:133). -/
def maskSuffix : List Char := ['*', '*', '*', '*']

/-- The persisted settings (GSettings.hpp): device name, SSID, password. -/
structure GSettings where
  deviceName : String
  ssid : String
  password : List Char

/-- The JSON object `GSettings::toJson` fills (one member per setting). -/
structure SettingsJson where
  deviceName : String
  ssid : String
  password : List Char

/-- `GSettings::toJson` (GSettings.cpp:129-134): the password member is the
empty string for an empty password, and otherwise `substring(0, 4)` followed
by "****". -/
def GSettings.toJson (g : GSettings) : SettingsJson :=
  ⟨g.deviceName, g.ssid,
   if g.password.isEmpty then [] else substringA g.password 0 4 ++ maskSuffix⟩

/-- `true` when `pat` occurs contiguously inside `l` (used to state that a
password appears in clear in a rendered snapshot). -/
def containsSeg (pat l : List Char) : Bool :=
  (List.range (l.length + 1)).any (fun i => (l.drop i).take pat.length == pat)

/-! ## HTTPServer.cpp and main.cpp: the /send endpoint -/

/-- `HTTPServer::looksLikePhone` (HTTPServer.cpp:242-253): 7..20 characters,
each a digit or '+'. -/
def looksLikePhone (s : String) : Bool :=
  if s.length < 7 ∨ 20 < s.length then false
  else s.toList.all (fun c => c = '+' || ('0' ≤ c ∧ c ≤ '9'))

/-- The HTTP statuses `HTTPServer::handleSend` can answer with. -/
inductive HttpResp where
  | r200 : HttpResp
  | r400 : HttpResp
  | r405 : HttpResp
  | r500 : HttpResp
  | r503 : HttpResp
  deriving DecidableEq

/-- `HTTPServer::handleSend` (HTTPServer.cpp:139-195), parametrised — as the
constructor is — over the SMS capability handed in by `setup()`.  `body` is
the `(phone, message)` pair extracted from the JSON payload (`none` models an
empty body or a JSON parse error, both answered 400); `registered` is the
verdict of the injected `checkModemRegistered` capability.  Validation runs
before any modem interaction: non-POST → 405, bad phone → 400, message
length outside 1..480 → 400, not registered → 503; only then is the send
capability invoked, its verdict mapped to 200/500. -/
def handleSend (sendFn : String → String → MState → Bool × MState)
    (isPost : Bool) (body : Option (String × String)) (registered : Bool)
    (s : MState) : HttpResp × MState :=
  if isPost = false then (HttpResp.r405, s)
  else
    match body with
    | none => (HttpResp.r400, s)
    | some (phone, message) =>
      if looksLikePhone phone = false then (HttpResp.r400, s)
      else if message.length < 1 ∨ 480 < message.length then (HttpResp.r400, s)
      else if registered = false then (HttpResp.r503, s)
      else
        let pr := sendFn phone message s
        (if pr.1 then HttpResp.r200 else HttpResp.r500, pr.2)

/-- The wiring of `setup()` (main.cpp:485): the /send endpoint receives the
unrestricted `sendSMS` pass-through, not `sendSmsSafe`. -/
def httpSendEndpoint (env : Env) :
    Bool → Option (String × String) → Bool → MState → HttpResp × MState :=
  handleSend (sendSMSM env)

/-- Projection used to state mode-iteration order: the entry index of a
radio-mode command. -/
def setModeIdx : Event → Option Nat
  | Event.setMode j _ => some j
  | _ => none

/-- The events one mode-sequence entry `i` may contribute to the trace of
the mode-iteration loop: its own radio-mode command (for its own non-skip
mode), AT chatter, a +CMNB= write subject to the profile's preference and
the LTE-family condition, and its own poll outcome — never an operator
selection, a last-resort +CNMP=2 or an SMS submission. -/
def entryEv (prof : Option CarrierProfile) (i : Nat) : Event → Prop
  | Event.setMode j m => j = i ∧ m = modeOf prof i ∧ m ≠ 0
  | Event.cmnbSet j v => j = i ∧
      (∃ p, prof = some p ∧ v = p.cmnb ∧ 0 ≤ p.cmnb) ∧
      (modeOf prof i = 38 ∨ modeOf prof i = 51)
  | Event.pollDone j _ => j = i
  | Event.cmd _ => True
  | Event.cregQuery => True
  | Event.copsLock _ _ => False
  | Event.copsAuto => False
  | Event.cnmpAuto => False
  | Event.smsSend _ _ => False

/-! ## C1: the single-shot registration check -/

/-- C1. `Modem::isCsRegistered` returns true exactly when its one response
line has a comma and the status field parses (via `toInt`) to 1 or 5; a
failed `waitResponse`, a line without a comma, or a field that parses to any
other value yields false (the function is total, so it never throws); and the
state-transformer form issues exactly one query, its result determined by
that single response (no retries). -/
theorem creg_single_shot_status_1_or_5 :
    (∀ line : List Char,
      isCsRegistered (some line) = true ↔
        (0 ≤ indexOfFrom line ',' 0 ∧ (cregStatOf line = 1 ∨ cregStatOf line = 5))) ∧
    isCsRegistered none = false ∧
    isCsRegistered (some (String.toList ("garbage"))) = false ∧
    (∀ env s, (isCsRegisteredM env s).2.q = s.q + 1 ∧
      (isCsRegisteredM env s).1 = isCsRegistered (env.resp s.q) ∧
      (isCsRegisteredM env s).2.events = s.events ++ [Event.cregQuery]) := by
  refine ⟨?_, rfl, by decide, fun env s => ⟨rfl, rfl, rfl⟩⟩
  intro line
  simp only [isCsRegistered, cregStatOf]
  by_cases h : indexOfFrom line ',' 0 < 0
  · simp only [if_pos h]
    constructor
    · intro hfalse; exact absurd hfalse (by simp)
    · intro ⟨h0, _⟩; omega
  · simp only [if_neg h, Bool.or_eq_true, beq_iff_eq]
    constructor
    · intro hor; exact ⟨by omega, hor⟩
    · intro ⟨_, hor⟩; exact hor

/-! ## Helper lemmas about the polling loop -/

/-- `waitLoop` only appends +CREG? queries to the trace and leaves the SMS
counter and busy flag alone. -/
theorem waitLoop_state (env : Env) (dl : Nat) :
    ∀ fuel s, ∃ tail, (waitLoop env dl fuel s).2.events = s.events ++ tail ∧
      (∀ e ∈ tail, e = Event.cregQuery) ∧
      (waitLoop env dl fuel s).2.sc = s.sc ∧
      (waitLoop env dl fuel s).2.busy = s.busy := by
  intro fuel
  induction fuel with
  | zero =>
    intro s
    exact ⟨[], by simp [waitLoop], by simp, rfl, rfl⟩
  | succ n ih =>
    intro s
    by_cases h : s.now < dl
    · cases hb : isCsRegistered (env.resp s.q) with
      | true =>
        refine ⟨[Event.cregQuery], ?_, by simp, ?_, ?_⟩ <;>
          simp [waitLoop, h, isCsRegisteredM, hb]
      | false =>
        have hred : waitLoop env dl (n + 1) s =
            waitLoop env dl n (delayM 500 (isCsRegisteredM env s).2) := by
          simp [waitLoop, h, isCsRegisteredM, hb]
        obtain ⟨tail, h1, h2, h3, h4⟩ := ih (delayM 500 (isCsRegisteredM env s).2)
        refine ⟨Event.cregQuery :: tail, ?_, ?_, ?_, ?_⟩
        · rw [hred, h1]
          simp [delayM, isCsRegisteredM]
        · intro e he
          rcases List.mem_cons.mp he with rfl | hm
          · rfl
          · exact h2 e hm
        · rw [hred, h3]; rfl
        · rw [hred, h4]; rfl
    · exact ⟨[], by simp [waitLoop, h], by simp, by simp [waitLoop, h], by simp [waitLoop, h]⟩

/-- Under an environment whose every response is unregistered, the poll loop
always times out. -/
theorem waitLoop_all_fail (env : Env)
    (h : ∀ k, isCsRegistered (env.resp k) = false) (dl : Nat) :
    ∀ fuel s, (waitLoop env dl fuel s).1 = false := by
  intro fuel
  induction fuel with
  | zero => intro s; rfl
  | succ n ih =>
    intro s
    by_cases hn : s.now < dl
    · have hp : (isCsRegisteredM env s).1 = false := h s.q
      simp [waitLoop, hn, hp, ih]
    · simp [waitLoop, hn]

/-- Under an environment whose every response is registered, the poll loop
succeeds at its very first query. -/
theorem waitLoop_all_true (env : Env)
    (h : ∀ k, isCsRegistered (env.resp k) = true) (dl fuel : Nat) (s : MState)
    (hf : 0 < fuel) (hn : s.now < dl) :
    waitLoop env dl fuel s = (true, (isCsRegisteredM env s).2) := by
  cases fuel with
  | zero => omega
  | succ n =>
    have hp : (isCsRegisteredM env s).1 = true := h s.q
    simp [waitLoop, hn, hp]

/-- `waitCsRegistered` under an always-unregistered environment times out. -/
theorem waitCsRegistered_all_fail (env : Env)
    (h : ∀ k, isCsRegistered (env.resp k) = false) (ms : Nat) (s : MState) :
    (waitCsRegistered env ms s).1 = false :=
  waitLoop_all_fail env h _ _ s

/-- `waitCsRegistered` under an always-registered environment returns after
one query. -/
theorem waitCsRegistered_all_true (env : Env)
    (h : ∀ k, isCsRegistered (env.resp k) = true) (ms : Nat) (hm : 0 < ms)
    (s : MState) :
    waitCsRegistered env ms s = (true, (isCsRegisteredM env s).2) :=
  waitLoop_all_true env h _ _ s (by omega) (by omega)

/-! ## C3: exact-match profile selection -/

/-- C3. `Modem::selectProfile` is an exact-match lookup: it returns a profile
exactly when that profile is a table entry whose `mccmnc` equals the queried
identifier (so no prefix or fuzzy matching can occur), and an IMSI shorter
than five characters yields the empty identifier, which selects the default
(null) profile. -/
theorem profile_lookup_exact :
    (∀ id p, selectProfile id = some p ↔ (p ∈ PROFILES ∧ p.mccmnc = id)) ∧
    (∀ imsi : String, imsi.length < 5 →
      mccmncFromIMSI imsi = "" ∧
      selectProfile (mccmncFromIMSI imsi) = DEFAULT_PROFILE) := by
  constructor
  · intro id p
    constructor
    · intro h
      unfold selectProfile at h
      cases hf : PROFILES.find? (fun q => id == q.mccmnc) with
      | none => rw [hf] at h; exact absurd h (by simp [DEFAULT_PROFILE])
      | some q =>
        rw [hf] at h
        have hqp : q = p := by injection h
        have hpred := List.find?_some hf
        have hmem := List.mem_of_find?_eq_some hf
        rw [hqp] at hpred hmem
        have heq : id = p.mccmnc := by simpa using hpred
        exact ⟨hmem, heq.symm⟩
    · rintro ⟨hmem, heq⟩
      have hp : p = vodafoneRO ∨ p = digiRO ∨ p = orangeRO := by
        simpa [PROFILES] using hmem
      rcases hp with rfl | rfl | rfl <;> rw [← heq] <;> decide
  · intro imsi h
    have h0 : mccmncFromIMSI imsi = "" := by
      unfold mccmncFromIMSI
      rw [if_pos h]
    refine ⟨h0, ?_⟩
    rw [h0]
    decide

/-- Concrete instance of C3: a four-character IMSI falls through to the
default profile, and the Digi identifier selects the Digi entry. -/
theorem profile_lookup_exact_witness :
    (mccmncFromIMSI ("2260") = "" ∧
      selectProfile (mccmncFromIMSI ("2260")) = DEFAULT_PROFILE) ∧
    (selectProfile ("22605") = some digiRO ↔
      (digiRO ∈ PROFILES ∧ digiRO.mccmnc = "22605")) :=
  ⟨profile_lookup_exact.2 ("2260") (by decide),
   profile_lookup_exact.1 ("22605") digiRO⟩

/-! ## C4: validation in sendSmsSafe versus the unrestricted sendSMS -/

/-- C4. `Modem::sendSmsSafe` returns false without touching the modem for a
text of length 0 or above 160 or for a destination that is not '+' followed
by at least 7 characters; with valid arguments (length 1..160) it reaches
the transport — under a registered network the transport is invoked with the
given destination and text and its verdict is returned.  `Modem::sendSMS`
applies no length cap: it always hands the text, of any length, to the
transport. -/
theorem sms_safe_bounds (env : Env) (dst text : String) (s : MState) :
    ((text.length < 1 ∨ 160 < text.length) →
      sendSmsSafe env dst text s = (false, s)) ∧
    (1 ≤ text.length → text.length ≤ 160 →
      ¬(startsWithA dst.toList ['+'] = true ∧ 7 ≤ (dst.toList.drop 1).length) →
      sendSmsSafe env dst text s = (false, s)) ∧
    (1 ≤ text.length → text.length ≤ 160 →
      startsWithA dst.toList ['+'] = true → 7 ≤ (dst.toList.drop 1).length →
      (∀ k, isCsRegistered (env.resp k) = true) →
      (sendSmsSafe env dst text s).1 = env.smsRes s.sc ∧
      Event.smsSend dst text ∈ (sendSmsSafe env dst text s).2.events) ∧
    ((sendSMSM env dst text s).1 = env.smsRes s.sc ∧
      (sendSMSM env dst text s).2.events = s.events ++ [Event.smsSend dst text]) := by
  refine ⟨?_, ?_, ?_, rfl, rfl⟩
  · intro h
    unfold sendSmsSafe
    rw [if_pos h]
  · intro h1 h2 h3
    unfold sendSmsSafe
    rw [if_neg (by omega), if_pos h3]
  · intro h1 h2 hsw hlen hreg
    have hw := waitCsRegistered_all_true env hreg 15000 (by omega)
      { s with busy := true }
    simp only [sendSmsSafe]
    rw [if_neg (show ¬(text.length < 1 ∨ 160 < text.length) by omega),
      if_neg (not_not_intro ⟨hsw, hlen⟩), hw]
    simp [sendSMSM, logEv, isCsRegisteredM]

/-- Always-registered environment: every +CREG? answer reports status 1 and
every transport submission succeeds. -/
def envReg : Env := ⟨fun _ => some [' ', '0', ',', '1'], fun _ => 40000, fun _ => true⟩

/-- A 161-character message. -/
def text161 : String := String.mk (List.replicate 161 'a')

set_option maxRecDepth 8000 in
/-- Concrete instance of C4: the 161-character message is rejected by
`sendSmsSafe` but handed to the transport by `sendSMS`; a 2-character
message to a valid number goes through. -/
theorem sms_safe_bounds_witness :
    sendSmsSafe envReg ("+40712345678") text161 ⟨0, 0, 0, false, []⟩ =
      (false, ⟨0, 0, 0, false, []⟩) ∧
    ((sendSmsSafe envReg ("+40712345678") ("hi") ⟨0, 0, 0, false, []⟩).1 =
        envReg.smsRes 0 ∧
      Event.smsSend ("+40712345678") ("hi") ∈
        (sendSmsSafe envReg ("+40712345678") ("hi") ⟨0, 0, 0, false, []⟩).2.events) ∧
    ((sendSMSM envReg ("+40712345678") text161 ⟨0, 0, 0, false, []⟩).1 =
        envReg.smsRes 0 ∧
      (sendSMSM envReg ("+40712345678") text161 ⟨0, 0, 0, false, []⟩).2.events =
        ([] : List Event) ++ [Event.smsSend ("+40712345678") text161]) :=
  ⟨(sms_safe_bounds envReg ("+40712345678") text161 ⟨0, 0, 0, false, []⟩).1
      (Or.inr (by decide)),
   (sms_safe_bounds envReg ("+40712345678") ("hi") ⟨0, 0, 0, false, []⟩).2.2.1
      (by decide) (by decide) (by decide) (by decide) (fun k => rfl),
   (sms_safe_bounds envReg ("+40712345678") text161 ⟨0, 0, 0, false, []⟩).2.2.2⟩

/-! ## C7: the busy flag -/

/-- A state in which a send is already in flight: `modemBusy` is set. -/
def sBusyStart : MState := ⟨0, 0, 0, true, []⟩

/-- C7 (refuting the claimed guard).  `modemBusy` is written by
`sendSmsSafe` but never read anywhere in the repository, so a second call
arriving while the flag is set is not rejected: starting from a state with
`busy = true`, a valid `sendSmsSafe` call still polls, transmits through the
transport and reports the transport's success. -/
theorem busy_flag_never_checked :
    sBusyStart.busy = true ∧
    (sendSmsSafe envReg ("+12345678") ("hi") sBusyStart).1 = true ∧
    Event.smsSend ("+12345678") ("hi") ∈
      (sendSmsSafe envReg ("+12345678") ("hi") sBusyStart).2.events :=
  ⟨rfl, by decide, by decide⟩

/-! ## C8: bounded probe registry -/

/-- Length of the registry after a batch of registrations: growth is clamped
at `PROBE_MAX`. -/
theorem registerMany_length {α : Type} :
    ∀ (ps : List (String × α)) (r : ProbeRegistry α),
      r.entries.length ≤ PROBE_MAX →
      (registerMany ps r).2.entries.length =
        min (r.entries.length + ps.length) PROBE_MAX := by
  intro ps
  induction ps with
  | nil =>
    intro r h
    simp [registerMany]
    omega
  | cons p rest ih =>
    intro r h
    obtain ⟨n, f⟩ := p
    by_cases hlt : r.entries.length < PROBE_MAX
    · have hr : r.registerProbe n f =
        (true, ⟨r.entries ++ [(n, f)]⟩) := by
        simp [ProbeRegistry.registerProbe, hlt]
      have := ih (⟨r.entries ++ [(n, f)]⟩ : ProbeRegistry α) (by simp; omega)
      simp only [registerMany, hr, this]
      simp
      omega
    · have hr : r.registerProbe n f = (false, r) := by
        simp [ProbeRegistry.registerProbe, hlt]
      have := ih r h
      simp only [registerMany, hr, this]
      omega

/-- C8. `ProbeRegistry::registerProbe` succeeds exactly below capacity, in
which case it appends the entry; at capacity it reports false and leaves the
registry untouched, so the entry count never decreases and never exceeds
`PROBE_MAX`; and after filling an empty registry with `PROBE_MAX` probes the
next registration fails while `collectAll` still yields exactly `PROBE_MAX`
entries. -/
theorem probe_registry_capacity (α : Type) :
    (∀ (r : ProbeRegistry α) (n : String) (f : α),
      ((r.registerProbe n f).1 = true ↔ r.entries.length < PROBE_MAX) ∧
      ((r.registerProbe n f).1 = true →
        (r.registerProbe n f).2.entries = r.entries ++ [(n, f)]) ∧
      ((r.registerProbe n f).1 = false → (r.registerProbe n f).2 = r) ∧
      r.entries.length ≤ (r.registerProbe n f).2.entries.length ∧
      (r.entries.length ≤ PROBE_MAX →
        (r.registerProbe n f).2.entries.length ≤ PROBE_MAX)) ∧
    (∀ (qs : List (String × α)) (n : String) (f : α), qs.length = PROBE_MAX →
      (((registerMany qs ⟨[]⟩).2).registerProbe n f).1 = false ∧
      ((registerMany (qs ++ [(n, f)]) ⟨[]⟩).2).collectAll.length = PROBE_MAX) := by
  constructor
  · intro r n f
    by_cases hlt : r.entries.length < PROBE_MAX
    · refine ⟨by simp [ProbeRegistry.registerProbe, hlt], ?_, ?_, ?_, ?_⟩ <;>
        simp [ProbeRegistry.registerProbe, hlt] <;> omega
    · refine ⟨by simp [ProbeRegistry.registerProbe, hlt], ?_, ?_, ?_, ?_⟩ <;>
        simp [ProbeRegistry.registerProbe, hlt]
  · intro qs n f hlen
    have h16 : (registerMany qs (⟨[]⟩ : ProbeRegistry α)).2.entries.length =
        PROBE_MAX := by
      have := registerMany_length qs (⟨[]⟩ : ProbeRegistry α) (by simp)
      simpa [hlen] using this
    constructor
    · simp [ProbeRegistry.registerProbe, h16]
    · have := registerMany_length (qs ++ [(n, f)]) (⟨[]⟩ : ProbeRegistry α)
        (by simp)
      simp only [ProbeRegistry.collectAll]
      rw [this]
      simp [hlen, PROBE_MAX]

/-- Concrete instance of C8: after sixteen registrations the seventeenth
fails and the collected snapshot still has sixteen entries. -/
theorem probe_registry_capacity_witness :
    (((registerMany (List.replicate PROBE_MAX (("p", ()) : String × Unit))
        ⟨[]⟩).2).registerProbe ("q") ()).1 = false ∧
    ((registerMany (List.replicate PROBE_MAX (("p", ()) : String × Unit) ++
        [(("q"), ())]) ⟨[]⟩).2).collectAll.length = PROBE_MAX :=
  (probe_registry_capacity Unit).2
    (List.replicate PROBE_MAX (("p", ()))) ("q") () (by simp)

/-! ## C9: password masking in the settings snapshot -/

/-- C9 counterexample.  The claim "the password is rendered as its first 4
characters plus the mask and the full password is never revealed" fails on
the code: a 3-character password "abc" renders as "abc****", in which the
full password occurs in clear, and the empty password renders as "" rather
than as first-4-plus-mask. -/
theorem password_mask_counterexample :
    (GSettings.toJson ⟨"", "", ['a', 'b', 'c']⟩).password =
      (['a', 'b', 'c'] : List Char) ++ maskSuffix ∧
    containsSeg ['a', 'b', 'c']
      (GSettings.toJson ⟨"", "", ['a', 'b', 'c']⟩).password = true ∧
    (GSettings.toJson ⟨"", "", []⟩).password ≠
      ([] : List Char).take 4 ++ maskSuffix :=
  ⟨by decide, by decide, by decide⟩

/-- `substring(0, n)` is `take n`. -/
theorem substringA_zero (l : List Char) (n : Nat) :
    substringA l 0 n = l.take n := by
  simp [substringA]

/-- Taking a prefix of an appended list stays inside the left part. -/
theorem take_append_of_le_len (l1 l2 : List Char) :
    ∀ n, n ≤ l1.length → (l1 ++ l2).take n = l1.take n := by
  induction l1 with
  | nil =>
    intro n h
    simp at h
    simp [h]
  | cons a t ih =>
    intro n h
    cases n with
    | zero => simp
    | succ m =>
      simp only [List.cons_append, List.take_succ_cons]
      rw [ih m (by simpa using h)]

/-- C9 (amended).  A nonempty password renders as its first `min 4 length`
characters followed by the fixed "****" suffix and an empty password renders
as the empty string; the tail beyond the fourth character never reaches the
output, so the snapshot does not determine a password longer than 4
characters (some distinct password renders identically) — but passwords of
at most 4 characters appear in the output in full. -/
theorem password_mask_amended (g : GSettings) :
    (g.password ≠ [] →
      (GSettings.toJson g).password = g.password.take 4 ++ maskSuffix) ∧
    (g.password = [] → (GSettings.toJson g).password = []) ∧
    (4 < g.password.length →
      ∃ pw2 : List Char, pw2 ≠ g.password ∧
        (GSettings.toJson { g with password := pw2 }).password =
          (GSettings.toJson g).password) ∧
    (g.password.length ≤ 4 → g.password ≠ [] →
      (GSettings.toJson g).password = g.password ++ maskSuffix) := by
  refine ⟨?_, ?_, ?_, ?_⟩
  · intro h
    have hne : g.password.isEmpty = false := by
      cases hpw : g.password with
      | nil => exact absurd hpw h
      | cons a t => rfl
    simp [GSettings.toJson, hne, substringA]
  · intro h
    simp [GSettings.toJson, h]
  · intro h
    refine ⟨g.password ++ ['x'], ?_, ?_⟩
    · intro heq
      have := congrArg List.length heq
      simp at this
    · have h1 : (g.password ++ ['x']).isEmpty = false := by
        cases hpw : g.password with
        | nil => simp [hpw] at h
        | cons a t => rfl
      have h2 : g.password.isEmpty = false := by
        cases hpw : g.password with
        | nil => simp [hpw] at h
        | cons a t => rfl
      simp only [GSettings.toJson, h1, h2, Bool.false_eq_true, if_false]
      rw [substringA_zero, substringA_zero,
        take_append_of_le_len g.password ['x'] 4 (by omega)]
  · intro hle hne
    have h0 : g.password.isEmpty = false := by
      cases hpw : g.password with
      | nil => exact absurd hpw hne
      | cons a t => rfl
    simp [GSettings.toJson, h0, substringA, List.take_of_length_le hle]

/-- Concrete instance of C9 (amended): a 6-character password renders as its
first four characters plus the mask, and some distinct password renders to
the very same snapshot value. -/
theorem password_mask_amended_witness :
    (GSettings.toJson ⟨"", "", ['s', 'e', 'c', 'r', 'e', 't']⟩).password =
      (['s', 'e', 'c', 'r', 'e', 't'] : List Char).take 4 ++ maskSuffix ∧
    (∃ pw2 : List Char, pw2 ≠ ['s', 'e', 'c', 'r', 'e', 't'] ∧
      (GSettings.toJson ⟨"", "", pw2⟩).password =
        (GSettings.toJson ⟨"", "", ['s', 'e', 'c', 'r', 'e', 't']⟩).password) :=
  ⟨(password_mask_amended ⟨"", "", ['s', 'e', 'c', 'r', 'e', 't']⟩).1 (by decide),
   (password_mask_amended ⟨"", "", ['s', 'e', 'c', 'r', 'e', 't']⟩).2.2.1 (by decide)⟩

/-! ## C10: the /send endpoint uses the unrestricted send -/

/-- C10. For a request whose phone field passes `looksLikePhone`, the /send
handler — wired by `setup()` to the unrestricted `sendSMS` — answers 400
(before any modem interaction, leaving the state untouched) exactly for
message lengths 0 or above 480; lengths 1..480 pass validation, and with the
modem registered the message is handed to the transport unchanged — even at
161..480 characters, where `sendSmsSafe` would refuse it. -/
theorem http_send_unrestricted (env : Env) (phone message : String)
    (s s2 : MState) (hp : looksLikePhone phone = true) :
    ((message.length < 1 ∨ 480 < message.length) → ∀ reg : Bool,
      httpSendEndpoint env true (some (phone, message)) reg s =
        (HttpResp.r400, s)) ∧
    (1 ≤ message.length → message.length ≤ 480 → ∀ reg : Bool,
      (httpSendEndpoint env true (some (phone, message)) reg s).1 ≠
        HttpResp.r400) ∧
    (1 ≤ message.length → message.length ≤ 480 →
      Event.smsSend phone message ∈
        (httpSendEndpoint env true (some (phone, message)) true s).2.events) ∧
    (161 ≤ message.length → sendSmsSafe env phone message s2 = (false, s2)) := by
  refine ⟨?_, ?_, ?_, ?_⟩
  · intro h reg
    rcases h with h | h <;> simp [httpSendEndpoint, handleSend, hp, h]
  · intro h1 h2 reg
    have hno : ¬(message.length = 0 ∨ 480 < message.length) := by omega
    cases reg with
    | false => simp [httpSendEndpoint, handleSend, hp, hno]
    | true =>
      simp [httpSendEndpoint, handleSend, hp, hno]
      split <;> simp
  · intro h1 h2
    have hno : ¬(message.length = 0 ∨ 480 < message.length) := by omega
    simp [httpSendEndpoint, handleSend, hp, hno, sendSMSM]
  · intro h
    unfold sendSmsSafe
    rw [if_pos (Or.inr (by omega))]

/-- A 300-character message. -/
def msg300 : String := String.mk (List.replicate 300 'b')

set_option maxRecDepth 8000 in
/-- Concrete instance of C10: a 300-character message to a valid number is
passed to the transport by the HTTP handler but rejected by
`sendSmsSafe`. -/
theorem http_send_unrestricted_witness :
    Event.smsSend ("+40712345678") msg300 ∈
      (httpSendEndpoint envReg true (some (("+40712345678"), msg300)) true
        ⟨0, 0, 0, false, []⟩).2.events ∧
    sendSmsSafe envReg ("+40712345678") msg300 ⟨0, 0, 0, false, []⟩ =
      (false, ⟨0, 0, 0, false, []⟩) :=
  ⟨(http_send_unrestricted envReg ("+40712345678") msg300
      ⟨0, 0, 0, false, []⟩ ⟨0, 0, 0, false, []⟩ (by decide)).2.2.1
      (by decide) (by decide),
   (http_send_unrestricted envReg ("+40712345678") msg300
      ⟨0, 0, 0, false, []⟩ ⟨0, 0, 0, false, []⟩ (by decide)).2.2.2
      (by decide)⟩

/-! ## Trace lemmas for the mode-iteration loop -/

/-- `waitCsRegistered` only appends +CREG? queries to the trace. -/
theorem waitCs_state (env : Env) (ms : Nat) (s : MState) :
    ∃ tail, (waitCsRegistered env ms s).2.events = s.events ++ tail ∧
      (∀ e ∈ tail, e = Event.cregQuery) ∧
      (waitCsRegistered env ms s).2.sc = s.sc ∧
      (waitCsRegistered env ms s).2.busy = s.busy :=
  waitLoop_state env (s.now + ms) (ms / 500 + 1) s

/-- The +CMNB= step appends at most one event, a `cmnbSet` carrying the
profile's non-negative preference, and only for an LTE-family mode. -/
theorem cmnbStep_spec (prof : Option CarrierProfile) (i : Nat) (s : MState) :
    ∃ ctail, (cmnbStep prof i s).events = s.events ++ ctail ∧
      (∀ e ∈ ctail, entryEv prof i e) ∧
      (∀ e ∈ ctail, ∃ v, e = Event.cmnbSet i v) ∧
      (cmnbStep prof i s).sc = s.sc ∧
      (cmnbStep prof i s).busy = s.busy := by
  cases prof with
  | none => exact ⟨[], by simp [cmnbStep], by simp, by simp, rfl, rfl⟩
  | some p =>
    by_cases hc : 0 ≤ p.cmnb ∧ (modeOf (some p) i = 38 ∨ modeOf (some p) i = 51)
    · refine ⟨[Event.cmnbSet i p.cmnb], ?_, ?_, ?_, ?_, ?_⟩ <;>
        simp [cmnbStep, hc, logEv, entryEv]
    · exact ⟨[], by simp [cmnbStep, hc], by simp, by simp,
        by simp [cmnbStep, hc], by simp [cmnbStep, hc]⟩

/-- Projection helpers: trace, SMS counter and busy flag of the elementary
state transformers, stated syntactically so that proofs never force the
evaluation of a polling loop. -/
theorem logEv_events (e : Event) (s : MState) :
    (logEv e s).events = s.events ++ [e] := rfl

/-- `logEv` leaves the SMS counter alone. -/
theorem logEv_sc (e : Event) (s : MState) : (logEv e s).sc = s.sc := rfl

/-- `logEv` leaves the busy flag alone. -/
theorem logEv_busy (e : Event) (s : MState) : (logEv e s).busy = s.busy := rfl

/-- `delayM` leaves the trace alone. -/
theorem delayM_events (d : Nat) (s : MState) :
    (delayM d s).events = s.events := rfl

/-- `delayM` leaves the SMS counter alone. -/
theorem delayM_sc (d : Nat) (s : MState) : (delayM d s).sc = s.sc := rfl

/-- `delayM` leaves the busy flag alone. -/
theorem delayM_busy (d : Nat) (s : MState) : (delayM d s).busy = s.busy := rfl

/-- The verdict of one entry is the verdict of its bounded poll. -/
theorem tryEntryStep_fst (env : Env) (prof : Option CarrierProfile) (i : Nat)
    (s : MState) :
    (tryEntryStep env prof i s).1 =
    (waitCsRegistered env 30000 (delayM 1500 (cmnbStep prof i
      (logEv (Event.cmd ("+CMNB?"))
        (logEv (Event.setMode i (modeOf prof i)) s))))).1 := by
  simp only [tryEntryStep]

/-- The trace of one entry ends with its own poll outcome. -/
theorem tryEntryStep_snd_events (env : Env) (prof : Option CarrierProfile)
    (i : Nat) (s : MState) :
    (tryEntryStep env prof i s).2.events =
    (waitCsRegistered env 30000 (delayM 1500 (cmnbStep prof i
      (logEv (Event.cmd ("+CMNB?"))
        (logEv (Event.setMode i (modeOf prof i)) s))))).2.events ++
      [Event.pollDone i (tryEntryStep env prof i s).1] := by
  simp only [tryEntryStep, logEv_events]

/-- One entry leaves the SMS counter alone (up to the poll's bookkeeping). -/
theorem tryEntryStep_snd_sc (env : Env) (prof : Option CarrierProfile)
    (i : Nat) (s : MState) :
    (tryEntryStep env prof i s).2.sc =
    (waitCsRegistered env 30000 (delayM 1500 (cmnbStep prof i
      (logEv (Event.cmd ("+CMNB?"))
        (logEv (Event.setMode i (modeOf prof i)) s))))).2.sc := by
  simp only [tryEntryStep, logEv_sc]

/-- One entry leaves the busy flag alone (up to the poll's bookkeeping). -/
theorem tryEntryStep_snd_busy (env : Env) (prof : Option CarrierProfile)
    (i : Nat) (s : MState) :
    (tryEntryStep env prof i s).2.busy =
    (waitCsRegistered env 30000 (delayM 1500 (cmnbStep prof i
      (logEv (Event.cmd ("+CMNB?"))
        (logEv (Event.setMode i (modeOf prof i)) s))))).2.busy := by
  simp only [tryEntryStep, logEv_busy]

/-- Trace shape of one non-skip entry: a `setMode` for this entry's mode, AT
chatter, an optional `cmnbSet`, the poll's queries and finally this entry's
`pollDone` carrying the step's verdict. -/
theorem tryEntryStep_spec (env : Env) (prof : Option CarrierProfile) (i : Nat)
    (s : MState) (hmode : modeOf prof i ≠ 0) :
    ∃ tail,
      (tryEntryStep env prof i s).2.events = s.events ++ tail ∧
      (∀ e ∈ tail, entryEv prof i e) ∧
      Event.setMode i (modeOf prof i) ∈ tail ∧
      Event.pollDone i (tryEntryStep env prof i s).1 ∈ tail ∧
      (∀ j b, Event.pollDone j b ∈ tail →
        j = i ∧ b = (tryEntryStep env prof i s).1) ∧
      (∀ k m, Event.setMode k m ∈ tail → k = i) ∧
      tail.filterMap setModeIdx = [i] ∧
      (tryEntryStep env prof i s).2.sc = s.sc ∧
      (tryEntryStep env prof i s).2.busy = s.busy := by
  obtain ⟨ctail, hc1, hc2, hc3, hc4, hc5⟩ :=
    cmnbStep_spec prof i
      (logEv (Event.cmd ("+CMNB?")) (logEv (Event.setMode i (modeOf prof i)) s))
  obtain ⟨wtail, hw1, hw2, hw3, hw4⟩ :=
    waitCs_state env 30000 (delayM 1500 (cmnbStep prof i
      (logEv (Event.cmd ("+CMNB?")) (logEv (Event.setMode i (modeOf prof i)) s))))
  refine ⟨Event.setMode i (modeOf prof i) :: Event.cmd ("+CMNB?") ::
      (ctail ++ wtail ++ [Event.pollDone i (tryEntryStep env prof i s).1]),
    ?_, ?_, ?_, ?_, ?_, ?_, ?_, ?_, ?_⟩
  · rw [tryEntryStep_snd_events, hw1, delayM_events, hc1, logEv_events,
      logEv_events]
    simp
  · intro e he
    rcases List.mem_cons.mp he with rfl | he
    · exact ⟨rfl, rfl, hmode⟩
    rcases List.mem_cons.mp he with rfl | he
    · trivial
    rcases List.mem_append.mp he with he | he
    · rcases List.mem_append.mp he with he | he
      · exact hc2 e he
      · rw [hw2 e he]; trivial
    · rw [List.mem_singleton.mp he]; exact rfl
  · exact List.mem_cons_self _ _
  · simp
  · intro j b hb
    rcases List.mem_cons.mp hb with hcontr | hb
    · exact absurd hcontr (by simp)
    rcases List.mem_cons.mp hb with hcontr | hb
    · exact absurd hcontr (by simp)
    rcases List.mem_append.mp hb with hb | hb
    · rcases List.mem_append.mp hb with hb | hb
      · obtain ⟨v, hv⟩ := hc3 _ hb; exact absurd hv (by simp)
      · have := hw2 _ hb; exact absurd this (by simp)
    · have h := List.mem_singleton.mp hb
      injection h with h1 h2
      exact ⟨h1, h2⟩
  · intro k m hk
    rcases List.mem_cons.mp hk with hkk | hk
    · injection hkk with h1 h2
    rcases List.mem_cons.mp hk with hkk | hk
    · exact absurd hkk (by simp)
    rcases List.mem_append.mp hk with hk | hk
    · rcases List.mem_append.mp hk with hk | hk
      · obtain ⟨v, hv⟩ := hc3 _ hk; exact absurd hv (by simp)
      · have := hw2 _ hk; exact absurd this (by simp)
    · exact absurd (List.mem_singleton.mp hk) (by simp)
  · have hcn : ctail.filterMap setModeIdx = [] := by
      refine List.filterMap_eq_nil.mpr ?_
      intro e he
      obtain ⟨v, hv⟩ := hc3 e he
      rw [hv]; rfl
    have hwn : wtail.filterMap setModeIdx = [] := by
      refine List.filterMap_eq_nil.mpr ?_
      intro e he
      rw [hw2 e he]; rfl
    simp [setModeIdx, List.filterMap_append, hcn, hwn]
  · rw [tryEntryStep_snd_sc, hw3, delayM_sc, hc4, logEv_sc, logEv_sc]
  · rw [tryEntryStep_snd_busy, hw4, delayM_busy, hc5, logEv_busy, logEv_busy]

/-- Trace and result specification of the mode-iteration loop over a strictly
increasing list of entry indices: every logged event belongs to one of the
listed entries, a successful poll makes the loop return true with no
radio-mode command of a later entry in the trace, a false result means every
non-skip entry was tried and timed out, and the radio-mode commands appear
in strictly increasing entry order. -/
theorem tryModesFrom_spec (env : Env) (prof : Option CarrierProfile) :
    ∀ (l : List Nat) (s : MState), List.Pairwise (· < ·) l →
      ∃ tail,
        (tryModesFrom env prof l s).2.events = s.events ++ tail ∧
        (∀ e ∈ tail, ∃ i ∈ l, entryEv prof i e) ∧
        (∀ j, Event.pollDone j true ∈ tail →
          (tryModesFrom env prof l s).1 = true ∧
          (∀ k m, Event.setMode k m ∈ tail → k ≤ j)) ∧
        ((tryModesFrom env prof l s).1 = false →
          ∀ j ∈ l, modeOf prof j ≠ 0 →
            Event.setMode j (modeOf prof j) ∈ tail ∧
            Event.pollDone j false ∈ tail) ∧
        List.Pairwise (· < ·) (tail.filterMap setModeIdx) ∧
        (tryModesFrom env prof l s).2.sc = s.sc ∧
        (tryModesFrom env prof l s).2.busy = s.busy := by
  intro l
  induction l with
  | nil =>
    intro s _
    refine ⟨[], by simp [tryModesFrom], by simp, ?_, by simp [tryModesFrom],
      by simp, rfl, rfl⟩
    intro j hj
    simp at hj
  | cons i rest ih =>
    intro s hpw
    obtain ⟨hlt, hpw'⟩ := List.pairwise_cons.mp hpw
    by_cases hmode : modeOf prof i = 0
    · have hred : tryModesFrom env prof (i :: rest) s =
          tryModesFrom env prof rest s := by
        simp [tryModesFrom, hmode]
      obtain ⟨tail, h1, h2, h3, h4, h5, h6, h7⟩ := ih s hpw'
      refine ⟨tail, ?_, ?_, ?_, ?_, h5, ?_, ?_⟩
      · rw [hred]; exact h1
      · intro e he
        obtain ⟨k, hk, hek⟩ := h2 e he
        exact ⟨k, List.mem_cons_of_mem _ hk, hek⟩
      · intro j hj
        rw [hred]
        exact h3 j hj
      · intro hf j hjmem hj0
        rw [hred] at hf
        rcases List.mem_cons.mp hjmem with rfl | hjr
        · exact absurd hmode hj0
        · exact h4 hf j hjr hj0
      · rw [hred]; exact h6
      · rw [hred]; exact h7
    · obtain ⟨etail, he1, he2, he3, he4, he5, he6, he7, he8, he9⟩ :=
        tryEntryStep_spec env prof i s hmode
      cases hb : (tryEntryStep env prof i s).1 with
      | true =>
        have hred : tryModesFrom env prof (i :: rest) s =
            (true, (tryEntryStep env prof i s).2) := by
          simp [tryModesFrom, hmode, hb]
        refine ⟨etail, ?_, ?_, ?_, ?_, ?_, ?_, ?_⟩
        · rw [hred]; exact he1
        · intro e he
          exact ⟨i, List.mem_cons_self i rest, he2 e he⟩
        · intro j hj
          obtain ⟨hji, _⟩ := he5 j true hj
          refine ⟨by rw [hred], ?_⟩
          intro k m hk
          have hki := he6 k m hk
          omega
        · intro hf
          rw [hred] at hf
          exact absurd hf (by simp)
        · rw [he7]
          simp
        · rw [hred]; exact he8
        · rw [hred]; exact he9
      | false =>
        have hred : tryModesFrom env prof (i :: rest) s =
            tryModesFrom env prof rest (tryEntryStep env prof i s).2 := by
          simp [tryModesFrom, hmode, hb]
        obtain ⟨rtail, hr1, hr2, hr3, hr4, hr5, hr6, hr7⟩ :=
          ih (tryEntryStep env prof i s).2 hpw'
        refine ⟨etail ++ rtail, ?_, ?_, ?_, ?_, ?_, ?_, ?_⟩
        · rw [hred, hr1, he1, List.append_assoc]
        · intro e he
          rcases List.mem_append.mp he with h | h
          · exact ⟨i, List.mem_cons_self i rest, he2 e h⟩
          · obtain ⟨k, hk, hek⟩ := hr2 e h
            exact ⟨k, List.mem_cons_of_mem _ hk, hek⟩
        · intro j hj
          rcases List.mem_append.mp hj with h | h
          · obtain ⟨rfl, hcontr⟩ := he5 j true h
            rw [hb] at hcontr
            exact absurd hcontr (by simp)
          · obtain ⟨hres, hsm⟩ := hr3 j h
            have hji : i < j := by
              obtain ⟨k, hkmem, hek⟩ := hr2 _ h
              have hjk : j = k := hek
              rw [hjk]
              exact hlt k hkmem
            refine ⟨by rw [hred]; exact hres, ?_⟩
            intro k m hk
            rcases List.mem_append.mp hk with hkk | hkk
            · have hki := he6 k m hkk
              omega
            · exact hsm k m hkk
        · intro hf
          rw [hred] at hf
          intro j hjmem hj0
          rcases List.mem_cons.mp hjmem with rfl | hjr
          · constructor
            · exact List.mem_append_left _ he3
            · have hpd := he4
              rw [hb] at hpd
              exact List.mem_append_left _ hpd
          · obtain ⟨hs', hp'⟩ := hr4 hf j hjr hj0
            exact ⟨List.mem_append_right _ hs', List.mem_append_right _ hp'⟩
        · rw [List.filterMap_append, he7, List.singleton_append]
          refine List.pairwise_cons.mpr ⟨?_, hr5⟩
          intro x hx
          obtain ⟨e, hemem, hex⟩ := List.mem_filterMap.mp hx
          obtain ⟨k, hkmem, hek⟩ := hr2 e hemem
          cases e with
          | setMode j m =>
            have hjx : j = x := by simpa [setModeIdx] using hex
            have hjk : j = k ∧ m = modeOf prof k ∧ m ≠ 0 := hek
            have hik : i < k := hlt k hkmem
            omega
          | cregQuery => simp [setModeIdx] at hex
          | cmd c => simp [setModeIdx] at hex
          | copsLock a b => simp [setModeIdx] at hex
          | copsAuto => simp [setModeIdx] at hex
          | cmnbSet a b => simp [setModeIdx] at hex
          | pollDone a b => simp [setModeIdx] at hex
          | cnmpAuto => simp [setModeIdx] at hex
          | smsSend a b => simp [setModeIdx] at hex
        · rw [hred, hr6]; exact he8
        · rw [hred, hr7]; exact he9

/-- `isCsRegisteredM` appends exactly one query event. -/
theorem isCsRegisteredM_events (env : Env) (s : MState) :
    (isCsRegisteredM env s).2.events = s.events ++ [Event.cregQuery] := rfl

/-- The verdict of `isCsRegisteredM` is the parse of the next response. -/
theorem isCsRegisteredM_fst (env : Env) (s : MState) :
    (isCsRegisteredM env s).1 = isCsRegistered (env.resp s.q) := rfl

/-- Trace and result specification of `Modem::setupRadioWithProfile`: a
prefix of configuration commands (URC setup and operator selection) followed
by the mode-iteration loop's trace. -/
theorem setupRadio_spec (env : Env) (prof : Option CarrierProfile)
    (s : MState) :
    ∃ pre tail,
      (setupRadioWithProfile env prof s).2.events = s.events ++ pre ++ tail ∧
      (∀ e ∈ pre, (∃ c, e = Event.cmd c) ∨
        (∃ pl a, e = Event.copsLock pl a) ∨ e = Event.copsAuto) ∧
      (∀ e ∈ tail, ∃ i ∈ [0, 1, 2, 3], entryEv prof i e) ∧
      (∀ j, Event.pollDone j true ∈ tail →
        (setupRadioWithProfile env prof s).1 = true ∧
        (∀ k m, Event.setMode k m ∈ tail → k ≤ j)) ∧
      ((setupRadioWithProfile env prof s).1 = false →
        ∀ j ∈ [0, 1, 2, 3], modeOf prof j ≠ 0 →
          Event.setMode j (modeOf prof j) ∈ tail ∧
          Event.pollDone j false ∈ tail) ∧
      List.Pairwise (· < ·) (tail.filterMap setModeIdx) ∧
      (setupRadioWithProfile env prof s).2.sc = s.sc ∧
      (setupRadioWithProfile env prof s).2.busy = s.busy := by
  have main : ∀ (s' : MState) (pre : List Event),
      s'.events = s.events ++ pre → s'.sc = s.sc → s'.busy = s.busy →
      (∀ e ∈ pre, (∃ c, e = Event.cmd c) ∨
        (∃ pl a, e = Event.copsLock pl a) ∨ e = Event.copsAuto) →
      setupRadioWithProfile env prof s = tryModesFrom env prof [0, 1, 2, 3] s' →
      ∃ pre' tail,
        (setupRadioWithProfile env prof s).2.events = s.events ++ pre' ++ tail ∧
        (∀ e ∈ pre', (∃ c, e = Event.cmd c) ∨
          (∃ pl a, e = Event.copsLock pl a) ∨ e = Event.copsAuto) ∧
        (∀ e ∈ tail, ∃ i ∈ [0, 1, 2, 3], entryEv prof i e) ∧
        (∀ j, Event.pollDone j true ∈ tail →
          (setupRadioWithProfile env prof s).1 = true ∧
          (∀ k m, Event.setMode k m ∈ tail → k ≤ j)) ∧
        ((setupRadioWithProfile env prof s).1 = false →
          ∀ j ∈ [0, 1, 2, 3], modeOf prof j ≠ 0 →
            Event.setMode j (modeOf prof j) ∈ tail ∧
            Event.pollDone j false ∈ tail) ∧
        List.Pairwise (· < ·) (tail.filterMap setModeIdx) ∧
        (setupRadioWithProfile env prof s).2.sc = s.sc ∧
        (setupRadioWithProfile env prof s).2.busy = s.busy := by
    intro s' pre hpre hsc hbusy hshape hred
    obtain ⟨tail, h1, h2, h3, h4, h5, h6, h7⟩ :=
      tryModesFrom_spec env prof [0, 1, 2, 3] s' (by decide)
    refine ⟨pre, tail, ?_, hshape, h2, ?_, ?_, h5, ?_, ?_⟩
    · rw [hred, h1, hpre]
    · intro j hj
      rw [hred]
      exact h3 j hj
    · intro hf
      rw [hred] at hf
      exact h4 hf
    · rw [hred, h6, hsc]
    · rw [hred, h7, hbusy]
  rcases prof with _ | p
  · exact main
      (logEv Event.copsAuto (logEv (Event.cmd ("+CGREG=2"))
        (logEv (Event.cmd ("+CREG=2")) s)))
      [Event.cmd ("+CREG=2"), Event.cmd ("+CGREG=2"), Event.copsAuto]
      (by simp [logEv]) rfl rfl
      (by intro e he; fin_cases he <;> simp)
      (by simp [setupRadioWithProfile])
  · rcases hpl : p.plmn with _ | pl
    · exact main
        (logEv Event.copsAuto (logEv (Event.cmd ("+CGREG=2"))
          (logEv (Event.cmd ("+CREG=2")) s)))
        [Event.cmd ("+CREG=2"), Event.cmd ("+CGREG=2"), Event.copsAuto]
        (by simp [logEv]) rfl rfl
        (by intro e he; fin_cases he <;> simp)
        (by simp [setupRadioWithProfile, hpl])
    · by_cases hact : 0 ≤ p.act
      · exact main
          (logEv (Event.copsLock pl p.act) (logEv (Event.cmd ("+CGREG=2"))
            (logEv (Event.cmd ("+CREG=2")) s)))
          [Event.cmd ("+CREG=2"), Event.cmd ("+CGREG=2"),
            Event.copsLock pl p.act]
          (by simp [logEv]) rfl rfl
          (by intro e he; fin_cases he <;> simp)
          (by simp [setupRadioWithProfile, hpl, hact])
      · exact main
          (logEv Event.copsAuto (logEv (Event.cmd ("+CGREG=2"))
            (logEv (Event.cmd ("+CREG=2")) s)))
          [Event.cmd ("+CREG=2"), Event.cmd ("+CGREG=2"), Event.copsAuto]
          (by simp [logEv]) rfl rfl
          (by intro e he; fin_cases he <;> simp)
          (by simp [setupRadioWithProfile, hpl, hact])

/-- Under an always-unregistered environment, every entry of the mode loop
times out. -/
theorem tryModesFrom_all_fail (env : Env)
    (h : ∀ k, isCsRegistered (env.resp k) = false)
    (prof : Option CarrierProfile) :
    ∀ (l : List Nat) (s : MState), (tryModesFrom env prof l s).1 = false := by
  intro l
  induction l with
  | nil => intro s; rfl
  | cons i rest ih =>
    intro s
    by_cases hmode : modeOf prof i = 0
    · simp [tryModesFrom, hmode, ih]
    · have hstep : (tryEntryStep env prof i s).1 = false := by
        rw [tryEntryStep_fst]
        exact waitCsRegistered_all_fail env h 30000 _
      simp [tryModesFrom, hmode, hstep, ih]

/-- Under an always-unregistered environment, `setupRadioWithProfile`
reports failure. -/
theorem setupRadio_all_fail (env : Env)
    (h : ∀ k, isCsRegistered (env.resp k) = false)
    (prof : Option CarrierProfile) (s : MState) :
    (setupRadioWithProfile env prof s).1 = false := by
  rcases prof with _ | p
  · simp [setupRadioWithProfile, tryModesFrom_all_fail env h]
  · rcases hpl : p.plmn with _ | pl
    · simp [setupRadioWithProfile, hpl, tryModesFrom_all_fail env h]
    · by_cases hact : 0 ≤ p.act
      · simp [setupRadioWithProfile, hpl, hact, tryModesFrom_all_fail env h]
      · simp [setupRadioWithProfile, hpl, hact, tryModesFrom_all_fail env h]

/-- `initModemClean` unfolded to its final registration check. -/
theorem initModemClean_eq (env : Env) (imsi : String) (s : MState) :
    initModemClean env imsi s =
      isCsRegisteredM env
        (if (setupRadioWithProfile env (selectProfile (mccmncFromIMSI imsi))
              (logEv (Event.cmd ("+CNMP?")) s)).1 then
          (setupRadioWithProfile env (selectProfile (mccmncFromIMSI imsi))
            (logEv (Event.cmd ("+CNMP?")) s)).2
        else
          (waitCsRegistered env 30000 (logEv Event.cnmpAuto
            (setupRadioWithProfile env (selectProfile (mccmncFromIMSI imsi))
              (logEv (Event.cmd ("+CNMP?")) s)).2)).2) := by
  simp only [initModemClean]

/-- Trace characterization of `initModemClean`: a command/operator prefix,
the mode loop's trace, then a closing block that holds the last-resort
+CNMP=2 exactly when every preferred mode timed out, and the final quick
registration check. -/
theorem initModemClean_trace (env : Env) (imsi : String) (s : MState) :
    ∃ pre tail post,
      (initModemClean env imsi s).2.events = s.events ++ pre ++ tail ++ post ∧
      (∀ e ∈ pre, (∃ c, e = Event.cmd c) ∨
        (∃ pl a, e = Event.copsLock pl a) ∨ e = Event.copsAuto) ∧
      (∀ e ∈ tail, ∃ i ∈ [0, 1, 2, 3],
        entryEv (selectProfile (mccmncFromIMSI imsi)) i e) ∧
      (∀ j, Event.pollDone j true ∈ tail →
        Event.cnmpAuto ∉ post ∧
        (∀ k m, Event.setMode k m ∈ tail → k ≤ j)) ∧
      (Event.cnmpAuto ∈ post →
        ∀ j ∈ [0, 1, 2, 3],
          modeOf (selectProfile (mccmncFromIMSI imsi)) j ≠ 0 →
          Event.pollDone j false ∈ tail) ∧
      (∀ e ∈ post, e = Event.cnmpAuto ∨ e = Event.cregQuery) ∧
      ((∀ k, isCsRegistered (env.resp k) = false) →
        (initModemClean env imsi s).1 = false ∧ Event.cnmpAuto ∈ post) := by
  obtain ⟨pre, tail, hv1, hv2, hv3, hv4, hv5, hv6, hv7, hv8⟩ :=
    setupRadio_spec env (selectProfile (mccmncFromIMSI imsi))
      (logEv (Event.cmd ("+CNMP?")) s)
  cases hsr : (setupRadioWithProfile env (selectProfile (mccmncFromIMSI imsi))
      (logEv (Event.cmd ("+CNMP?")) s)).1 with
  | true =>
    refine ⟨Event.cmd ("+CNMP?") :: pre, tail, [Event.cregQuery],
      ?_, ?_, hv3, ?_, ?_, ?_, ?_⟩
    · rw [initModemClean_eq]
      simp only [hsr, if_true]
      rw [isCsRegisteredM_events, hv1, logEv_events]
      simp
    · intro e he
      rcases List.mem_cons.mp he with rfl | he
      · exact Or.inl ⟨_, rfl⟩
      · exact hv2 e he
    · intro j hj
      exact ⟨by simp, (hv4 j hj).2⟩
    · intro hcontr
      exact absurd hcontr (by simp)
    · intro e he
      rw [List.mem_singleton.mp he]
      exact Or.inr rfl
    · intro hall
      have := setupRadio_all_fail env hall
        (selectProfile (mccmncFromIMSI imsi))
        (logEv (Event.cmd ("+CNMP?")) s)
      rw [hsr] at this
      exact absurd this (by simp)
  | false =>
    obtain ⟨wtail2, hwv1, hwv2, _, _⟩ :=
      waitCs_state env 30000 (logEv Event.cnmpAuto
        (setupRadioWithProfile env (selectProfile (mccmncFromIMSI imsi))
          (logEv (Event.cmd ("+CNMP?")) s)).2)
    refine ⟨Event.cmd ("+CNMP?") :: pre, tail,
      Event.cnmpAuto :: (wtail2 ++ [Event.cregQuery]), ?_, ?_, hv3, ?_, ?_, ?_, ?_⟩
    · rw [initModemClean_eq]
      simp only [hsr, Bool.false_eq_true, if_false]
      rw [isCsRegisteredM_events, hwv1, logEv_events, hv1, logEv_events]
      simp
    · intro e he
      rcases List.mem_cons.mp he with rfl | he
      · exact Or.inl ⟨_, rfl⟩
      · exact hv2 e he
    · intro j hj
      have := (hv4 j hj).1
      rw [hsr] at this
      exact absurd this (by simp)
    · intro _ j hjmem hj0
      exact (hv5 hsr j hjmem hj0).2
    · intro e he
      rcases List.mem_cons.mp he with rfl | he
      · exact Or.inl rfl
      rcases List.mem_append.mp he with he | he
      · exact Or.inr (hwv2 e he)
      · rw [List.mem_singleton.mp he]
        exact Or.inr rfl
    · intro hall
      constructor
      · rw [initModemClean_eq]
        simp only [hsr, Bool.false_eq_true, if_false]
        rw [isCsRegisteredM_fst]
        exact hall _
      · exact List.mem_cons_self _ _

/-! ## C2: early exit of the registration engine -/

/-- C2.  If the bounded registration poll for mode-sequence entry `i`
succeeds, the engine stops immediately: `setupRadioWithProfile` returns true
and its trace contains no radio-mode command for any entry after `i`; inside
`initModemClean` a successful entry poll excludes the last-resort +CNMP=2
attempt from the whole run, and the last-resort attempt occurs only when
every non-skip entry's poll has timed out. -/
theorem registration_early_exit (env : Env) (prof : Option CarrierProfile)
    (imsi : String) (now q sc : Nat) (b : Bool) (i : Nat) :
    (Event.pollDone i true ∈
        (setupRadioWithProfile env prof ⟨now, q, sc, b, []⟩).2.events →
      (setupRadioWithProfile env prof ⟨now, q, sc, b, []⟩).1 = true ∧
      (∀ j m, Event.setMode j m ∈
          (setupRadioWithProfile env prof ⟨now, q, sc, b, []⟩).2.events →
        j ≤ i)) ∧
    (Event.pollDone i true ∈
        (initModemClean env imsi ⟨now, q, sc, b, []⟩).2.events →
      Event.cnmpAuto ∉
        (initModemClean env imsi ⟨now, q, sc, b, []⟩).2.events) ∧
    (Event.cnmpAuto ∈ (initModemClean env imsi ⟨now, q, sc, b, []⟩).2.events →
      ∀ j, j < 4 → modeOf (selectProfile (mccmncFromIMSI imsi)) j ≠ 0 →
        Event.pollDone j false ∈
          (initModemClean env imsi ⟨now, q, sc, b, []⟩).2.events) := by
  obtain ⟨pre, tail, hv1, hv2, hv3, hv4, hv5, hv6, hv7, hv8⟩ :=
    setupRadio_spec env prof ⟨now, q, sc, b, []⟩
  have hev : (setupRadioWithProfile env prof ⟨now, q, sc, b, []⟩).2.events =
      pre ++ tail := by
    rw [hv1]; simp
  obtain ⟨preI, tailI, postI, ht1, ht2, ht3, ht4, ht5, ht6, ht7⟩ :=
    initModemClean_trace env imsi ⟨now, q, sc, b, []⟩
  have hevI : (initModemClean env imsi ⟨now, q, sc, b, []⟩).2.events =
      preI ++ tailI ++ postI := by
    rw [ht1]; simp
  refine ⟨?_, ?_, ?_⟩
  · intro hin
    rw [hev] at hin
    rcases List.mem_append.mp hin with h | h
    · exfalso
      rcases hv2 _ h with ⟨c, hc⟩ | ⟨pl, a, hc⟩ | hc <;> simp at hc
    · obtain ⟨hres, hsm⟩ := hv4 i h
      refine ⟨hres, ?_⟩
      intro j m hjm
      rw [hev] at hjm
      rcases List.mem_append.mp hjm with h2 | h2
      · exfalso
        rcases hv2 _ h2 with ⟨c, hc⟩ | ⟨pl, a, hc⟩ | hc <;> simp at hc
      · exact hsm j m h2
  · intro hin
    rw [hevI] at hin ⊢
    have hintail : Event.pollDone i true ∈ tailI := by
      rcases List.mem_append.mp hin with h | h
      · rcases List.mem_append.mp h with h2 | h2
        · exfalso
          rcases ht2 _ h2 with ⟨c, hc⟩ | ⟨pl, a, hc⟩ | hc <;> simp at hc
        · exact h2
      · exfalso
        rcases ht6 _ h with hc | hc <;> simp at hc
    obtain ⟨hnpost, _⟩ := ht4 i hintail
    intro hc
    rcases List.mem_append.mp hc with h | h
    · rcases List.mem_append.mp h with h2 | h2
      · rcases ht2 _ h2 with ⟨c, hc2⟩ | ⟨pl, a, hc2⟩ | hc2 <;> simp at hc2
      · obtain ⟨k, _, hek⟩ := ht3 _ h2
        exact hek
    · exact hnpost h
  · intro hc j hj4 hj0
    rw [hevI] at hc ⊢
    have hcpost : Event.cnmpAuto ∈ postI := by
      rcases List.mem_append.mp hc with h | h
      · rcases List.mem_append.mp h with h2 | h2
        · exfalso
          rcases ht2 _ h2 with ⟨c, hc2⟩ | ⟨pl, a, hc2⟩ | hc2 <;> simp at hc2
        · exfalso
          obtain ⟨k, _, hek⟩ := ht3 _ h2
          exact hek
      · exact h
    have hjmem : j ∈ [0, 1, 2, 3] := by
      simp
      omega
    have := ht5 hcpost j hjmem hj0
    exact List.mem_append_left _ (List.mem_append_right _ this)

/-- Always-unregistered environment: every +CREG? round trip fails. -/
def envDead : Env := ⟨fun _ => none, fun _ => 40000, fun _ => true⟩

/-- Concrete instance of C2: with an immediately registered network the
engine succeeds at entry 0 of the automatic fallback sequence and no
last-resort attempt appears; with a dead network the last-resort attempt is
preceded by a timed-out poll of every non-skip entry. -/
theorem registration_early_exit_witness :
    ((setupRadioWithProfile envReg none ⟨0, 0, 0, false, []⟩).1 = true ∧
      (∀ j m, Event.setMode j m ∈
          (setupRadioWithProfile envReg none ⟨0, 0, 0, false, []⟩).2.events →
        j ≤ 0)) ∧
    (Event.cnmpAuto ∉
      (initModemClean envReg ("123") ⟨0, 0, 0, false, []⟩).2.events) ∧
    (∀ j, j < 4 → modeOf (selectProfile (mccmncFromIMSI ("123"))) j ≠ 0 →
      Event.pollDone j false ∈
        (initModemClean envDead ("123") ⟨0, 0, 0, false, []⟩).2.events) :=
  ⟨(registration_early_exit envReg none ("x") 0 0 0 false 0).1 (by decide),
   (registration_early_exit envReg none ("123") 0 0 0 false 0).2.1 (by decide),
   (registration_early_exit envDead none ("123") 0 0 0 false 0).2.2 (by decide)⟩

/-! ## C5: exhaustion is a reported state, not a crash -/

/-- C5.  With an unknown operator (profile lookup miss) and an environment
in which no poll ever reports registration, `initModemClean` runs the
last-resort +CNMP=2 attempt, which also times out, and terminates normally
reporting "not registered" (the model is a total function, so every path
returns rather than aborting the process). -/
theorem exhausted_reports_not_registered (env : Env) (imsi : String)
    (now q sc : Nat) (b : Bool)
    (hmiss : selectProfile (mccmncFromIMSI imsi) = DEFAULT_PROFILE)
    (hfail : ∀ k, isCsRegistered (env.resp k) = false) :
    (initModemClean env imsi ⟨now, q, sc, b, []⟩).1 = false ∧
    Event.cnmpAuto ∈
      (initModemClean env imsi ⟨now, q, sc, b, []⟩).2.events := by
  obtain ⟨pre, tail, post, ht1, ht2, ht3, ht4, ht5, ht6, ht7⟩ :=
    initModemClean_trace env imsi ⟨now, q, sc, b, []⟩
  obtain ⟨hres, hmem⟩ := ht7 hfail
  refine ⟨hres, ?_⟩
  rw [ht1]
  exact List.mem_append_right _ hmem

/-- Concrete instance of C5: a 3-character IMSI misses the table and a dead
network exhausts all modes; the run ends unregistered with the last-resort
attempt on record. -/
theorem exhausted_reports_not_registered_witness :
    (initModemClean envDead ("123") ⟨0, 0, 0, false, []⟩).1 = false ∧
    Event.cnmpAuto ∈
      (initModemClean envDead ("123") ⟨0, 0, 0, false, []⟩).2.events :=
  exhausted_reports_not_registered envDead ("123") 0 0 0 false (by decide)
    (fun _ => rfl)

/-! ## C6: mode iteration order, skip entries, CMNB gating -/

/-- C6.  During mode iteration the radio-mode commands carry strictly
increasing entry indices (entries are tried in order), each one sets exactly
its entry's non-zero mode (a zero entry is skipped: no radio-mode command is
issued for it), on a fully failed run every non-skip entry was tried, and a
+CMNB= write happens only with the profile's own non-negative preference and
only for an entry whose mode is in the LTE family (38 or 51) — never for
mode 13 or mode 2. -/
theorem mode_iteration_order (env : Env) (prof : Option CarrierProfile)
    (now q sc : Nat) (b : Bool) :
    (∀ j m, Event.setMode j m ∈
        (setupRadioWithProfile env prof ⟨now, q, sc, b, []⟩).2.events →
      j < 4 ∧ m = modeOf prof j ∧ m ≠ 0) ∧
    List.Pairwise (· < ·)
      ((setupRadioWithProfile env prof
        ⟨now, q, sc, b, []⟩).2.events.filterMap setModeIdx) ∧
    (∀ j v, Event.cmnbSet j v ∈
        (setupRadioWithProfile env prof ⟨now, q, sc, b, []⟩).2.events →
      (∃ p, prof = some p ∧ v = p.cmnb ∧ 0 ≤ p.cmnb) ∧
      (modeOf prof j = 38 ∨ modeOf prof j = 51) ∧
      modeOf prof j ≠ 13 ∧ modeOf prof j ≠ 2) ∧
    ((setupRadioWithProfile env prof ⟨now, q, sc, b, []⟩).1 = false →
      ∀ j, j < 4 → modeOf prof j ≠ 0 →
        Event.setMode j (modeOf prof j) ∈
          (setupRadioWithProfile env prof ⟨now, q, sc, b, []⟩).2.events) := by
  obtain ⟨pre, tail, hv1, hv2, hv3, hv4, hv5, hv6, hv7, hv8⟩ :=
    setupRadio_spec env prof ⟨now, q, sc, b, []⟩
  have hev : (setupRadioWithProfile env prof ⟨now, q, sc, b, []⟩).2.events =
      pre ++ tail := by
    rw [hv1]; simp
  refine ⟨?_, ?_, ?_, ?_⟩
  · intro j m hjm
    rw [hev] at hjm
    rcases List.mem_append.mp hjm with h | h
    · exfalso
      rcases hv2 _ h with ⟨c, hc⟩ | ⟨pl, a, hc⟩ | hc <;> simp at hc
    · obtain ⟨k, hk, hek⟩ := hv3 _ h
      obtain ⟨hjk, hm, hm0⟩ :=
        (hek : j = k ∧ m = modeOf prof k ∧ m ≠ 0)
      have hk4 : k < 4 := by
        simp at hk
        omega
      subst hjk
      exact ⟨hk4, hm, hm0⟩
  · rw [hev, List.filterMap_append]
    have hprenil : pre.filterMap setModeIdx = [] := by
      refine List.filterMap_eq_nil.mpr ?_
      intro e he
      rcases hv2 _ he with ⟨c, hc⟩ | ⟨pl, a, hc⟩ | hc <;> rw [hc] <;> rfl
    rw [hprenil, List.nil_append]
    exact hv6
  · intro j v hjv
    rw [hev] at hjv
    rcases List.mem_append.mp hjv with h | h
    · exfalso
      rcases hv2 _ h with ⟨c, hc⟩ | ⟨pl, a, hc⟩ | hc <;> simp at hc
    · obtain ⟨k, hk, hek⟩ := hv3 _ h
      obtain ⟨hjk, hp, hlte⟩ :=
        (hek : j = k ∧ (∃ p, prof = some p ∧ v = p.cmnb ∧ 0 ≤ p.cmnb) ∧
          (modeOf prof k = 38 ∨ modeOf prof k = 51))
      subst hjk
      refine ⟨hp, hlte, ?_, ?_⟩ <;> rcases hlte with h38 | h51 <;> omega
  · intro hf j hj4 hj0
    have hjmem : j ∈ [0, 1, 2, 3] := by
      simp
      omega
    obtain ⟨hs', _⟩ := hv5 hf j hjmem hj0
    rw [hev]
    exact List.mem_append_right _ hs'

/-- Concrete instance of C6: with the Vodafone profile the first entry sets
mode 38 and the CMNB preference is applied for it; the radio-mode commands
of the run are in strictly increasing entry order. -/
theorem mode_iteration_order_witness :
    List.Pairwise (· < ·)
      ((setupRadioWithProfile envReg (some vodafoneRO)
        ⟨0, 0, 0, false, []⟩).2.events.filterMap setModeIdx) ∧
    ((∃ p, some vodafoneRO = some p ∧ (0 : Int) = p.cmnb ∧ 0 ≤ p.cmnb) ∧
      (modeOf (some vodafoneRO) 0 = 38 ∨ modeOf (some vodafoneRO) 0 = 51) ∧
      modeOf (some vodafoneRO) 0 ≠ 13 ∧ modeOf (some vodafoneRO) 0 ≠ 2) :=
  ⟨(mode_iteration_order envReg (some vodafoneRO) 0 0 0 false).2.1,
   (mode_iteration_order envReg (some vodafoneRO) 0 0 0 false).2.2.1 0 0
     (by decide)⟩
